import Mathlib

/-!
# Verification of the Daifugo card-game server

Shallow embedding of the game logic of `src/server.js` (first revision,
lines 1-409, whose handlers the claims cite) together with the
multi-room turn sequencer of `src/unnamed/part_001` (lines 323-333).

Conventions of the embedding:
* JS strings for suits/ranks/statuses/roles/game states become inductive
  types (`'s'`/`'h'`/`'d'`/`'c'`/`'joker'`, `'3'`..`'2'`/`'joker'`,
  `'playing'`/`'passed'`/`'finished'`, `'平民'`/`'大富豪'`/`'大貧民'`,
  `'waiting'`/`'playing'`/`'exchange'`/`'finished'`).
* The five Japanese rejection strings produced by `validatePlay` become
  the constructors of `RejectReason`; the template literal
  `場と同じ${...}枚で出してください。` carries the field length, so
  `countMismatch` carries it too.
* Player ids (`player_<timestamp>_<random>` strings) become `Nat`.
* `Array.prototype.sort` with the comparator
  `(a, b) => a.value - b.value || a.suit.localeCompare(b.suit)` is a
  stable sort by the key (value, suit in the order c < d < h < joker < s
  given by `localeCompare`); it is modelled by `List.insertionSort` on
  that key.  Hands never contain two distinct cards with equal key, so
  tie order is irrelevant.
* The unbounded `while` loops of `findNextPlayer` are modelled with
  explicit fuel; `players.length + 1` (resp. `players.length`) units are
  provably enough, which is claim C10.
* `setTimeout`-deferred transitions (`startNextRound`,
  `handleCardExchange`, `resetGame`) are not part of the synchronous
  state change of a handler and are not modelled; the synchronous
  mutations and the messages sent are.
-/

namespace Daifugo

/-- Suits `'s' 'h' 'd' 'c' 'joker'` (SUITS plus the joker pseudo-suit). -/
inductive Suit
  | s | h | d | c | joker
deriving DecidableEq, Repr

/-- Ranks `'3' ... '2'` and `'joker'` (RANKS plus the joker rank). -/
inductive Rank
  | r3 | r4 | r5 | r6 | r7 | r8 | r9 | r10 | rJ | rQ | rK | rA | r2 | joker
deriving DecidableEq, Repr

/-- `RANK_VALUES` of src/server.js lines 21-24. -/
def rankValue : Rank → Nat
  | .r3 => 1 | .r4 => 2 | .r5 => 3 | .r6 => 4 | .r7 => 5 | .r8 => 6
  | .r9 => 7 | .r10 => 8 | .rJ => 9 | .rQ => 10 | .rK => 11 | .rA => 12
  | .r2 => 13 | .joker => 15

/-- A card object `{ suit, rank, value }` as built by `createDeck`
(line 46); client-sent cards carry the same fields. -/
structure Card where
  suit : Suit
  rank : Rank
  value : Nat
deriving DecidableEq, Repr

instance : Inhabited Card := ⟨⟨.s, .r3, 1⟩⟩

/-- A card as `createDeck` makes it: `value` is `RANK_VALUES[rank]`. -/
def mkCard (su : Suit) (r : Rank) : Card := ⟨su, r, rankValue r⟩

/-- The suit-string order given by `localeCompare` on
`"c" < "d" < "h" < "joker" < "s"`. -/
def suitOrd : Suit → Nat
  | .c => 0 | .d => 1 | .h => 2 | .joker => 3 | .s => 4

/-- The order decided by the comparator of `sortHand` (line 70):
`a.value - b.value || a.suit.localeCompare(b.suit)`. -/
def cardLe (a b : Card) : Prop :=
  a.value < b.value ∨ (a.value = b.value ∧ suitOrd a.suit ≤ suitOrd b.suit)

instance : DecidableRel cardLe := fun a b => by
  unfold cardLe; infer_instance

instance : IsTotal Card cardLe where
  total a b := by unfold cardLe; omega

instance : IsTrans Card cardLe where
  trans a b c hab hbc := by unfold cardLe at *; omega

/-- `sortHand` (src/server.js lines 69-71): stable sort of a hand by the
comparator above. -/
def sortHand (hand : List Card) : List Card := hand.insertionSort cardLe

/-- Player status strings `'playing' | 'passed' | 'finished'`. -/
inductive PStatus
  | playing | passed | finished
deriving DecidableEq, Repr

/-- Role strings: `'平民'` (commoner), `'大富豪'` (richest),
`'大貧民'` (poorest). -/
inductive Role
  | commoner | richest | poorest
deriving DecidableEq, Repr

/-- A player object as created in the `join` handler (lines 250-252). -/
structure Player where
  id : Nat
  name : String
  hand : List Card
  status : PStatus
  role : Role
  rank : Option Nat
deriving DecidableEq, Repr

instance : Inhabited Player :=
  ⟨{ id := 0, name := "", hand := [], status := .playing,
     role := .commoner, rank := none }⟩

/-- Game state strings `'waiting' | 'playing' | 'exchange' | 'finished'`. -/
inductive GState
  | waiting | playing | exchange | finished
deriving DecidableEq, Repr

/-- `game.gameSettings` (lines 34-37). -/
structure GameSettings where
  limit : Nat
  hostId : Option Nat
deriving DecidableEq, Repr

/-- The global `game` object (lines 26-40).  `lastPlay` is
`{ playerId, cards }` or `null`. -/
structure Game where
  players : List Player
  gameState : GState
  turnIndex : Int
  field : List Card
  lastPlay : Option (Nat × List Card)
  passCount : Nat
  gameCount : Nat
  gameSettings : GameSettings
  ranks : List Nat
deriving DecidableEq, Repr

/-- The five rejection messages of `validatePlay`.  `countMismatch`
carries `game.field.length`, interpolated into the message text. -/
inductive RejectReason
  | emptySelection   -- 'カードを選択してください。'
  | cardNotInHand    -- '手札にないカードです。'
  | mixedRanks       -- '同じランクのカードしか同時に出せません。'
  | countMismatch (n : Nat)  -- '場と同じ n 枚で出してください。'
  | tooWeak          -- '場より強いカードを出してください。'
deriving DecidableEq, Repr

/-- The result object `{ valid, message }` of `validatePlay`. -/
inductive VResult
  | ok
  | reject (r : RejectReason)
deriving DecidableEq, Repr

/-- `h.suit === card.suit && h.rank === card.rank` (line 156). -/
def cardMatches (h c : Card) : Bool := h.suit == c.suit && h.rank == c.rank

/-- `playedCards.find(c => c.rank !== 'joker')?.rank || playedCards[0].rank`
(line 161): the anchor rank of a non-empty attempt. -/
def anchorRank (cards : List Card) : Rank :=
  match cards.find? (fun c => c.rank != Rank.joker) with
  | some c => c.rank
  | none => (cards.headD default).rank

/-- `game.field.find(c => c.rank !== 'joker') || game.field[0]`
(line 174): the anchor card of a non-empty field. -/
def anchorCard (field : List Card) : Card :=
  match field.find? (fun c => c.rank != Rank.joker) with
  | some c => c
  | none => field.headD default

/-- `validatePlay(playedCards, playerHand)` (src/server.js lines
152-183); the field is passed explicitly (it reads `game.field`). -/
def validatePlay (playedCards playerHand field : List Card) : VResult :=
  if playedCards.length = 0 then .reject .emptySelection
  else if playedCards.any (fun c => !(playerHand.any (fun h => cardMatches h c))) then
    .reject .cardNotInHand
  else
    let firstCardRank := anchorRank playedCards
    if playedCards.any (fun c => c.rank != Rank.joker && c.rank != firstCardRank) then
      .reject .mixedRanks
    else if 0 < field.length then
      if playedCards.length ≠ field.length then .reject (.countMismatch field.length)
      else if rankValue firstCardRank ≤ rankValue (anchorCard field).rank then
        .reject .tooWeak
      else .ok
    else .ok

/-- `players[i] !== undefined && players[i].status === 'playing'`. -/
def isPlayingAt (players : List Player) (i : Nat) : Bool :=
  match players.get? i with
  | some p => p.status == PStatus.playing
  | none => false

/-- The `while` loop of `findNextPlayer` in src/server.js lines 145-148:
`while (players[nextIndex].status !== 'playing' && checkedCount < players.length)`.
Returns the final `(nextIndex, checkedCount)`.  The JS loop is
unbounded; `fuel` is explicit, and `players.length + 1` units are enough
(the loop exits as soon as `checkedCount` reaches `players.length`). -/
def fnpLoop (players : List Player) (start cc : Nat) : Nat → Nat × Nat
  | 0 => (start, cc)
  | fuel + 1 =>
    if isPlayingAt players start || players.length ≤ cc then (start, cc)
    else fnpLoop players ((start + 1) % players.length) (cc + 1) fuel

/-- `findNextPlayer` of src/server.js lines 141-150 (checked-count
variant), with `game.players` and `game.turnIndex` as arguments.
`(turnIndex + 1).toNat` agrees with the JS `(turnIndex + 1) %
players.length` for every `turnIndex ≥ -1`, the only values it takes. -/
def findNextPlayer1 (players : List Player) (turnIndex : Int) : Int :=
  if players.length = 0 then -1
  else
    let r := fnpLoop players ((turnIndex + 1).toNat % players.length) 0 (players.length + 1)
    if players.length ≤ r.2 then -1 else (r.1 : Int)

/-- The `while` loop of `findNextPlayer` in src/unnamed/part_001 lines
329-331 (and src/server.js lines 512-514): scans circularly for a
`'playing'` status.  The JS loop is unbounded; `players.length` fuel
units are enough once the active-player guard has passed (claim C10). -/
def scanLoop (players : List Player) : Nat → Nat → Option Nat
  | _, 0 => none
  | start, fuel + 1 =>
    if isPlayingAt players start then some start
    else scanLoop players ((start + 1) % players.length) fuel

/-- `findNextPlayer(players, currentIndex)` of src/unnamed/part_001
lines 323-333: empty-list guard, active-player guard, then the scan.
The `none` fallback is unreachable (claim C10). -/
def findNextPlayer (players : List Player) (currentIndex : Int) : Int :=
  if players.length = 0 then -1
  else if (players.filter (fun p => p.status == PStatus.playing)).length = 0 then -1
  else
    match scanLoop players ((currentIndex + 1).toNat % players.length) players.length with
    | some i => (i : Int)
    | none => -1

/-- The kinds of `systemMessage` broadcasts a play/pass can produce. -/
inductive SysKind
  | eightClear        -- '...が8切り！場が流れます。'
  | finishedAnnounce  -- '...が...位で上がりました！'
  | allPass           -- '全員がパスしました。場が流れます。'
  | exchangePrep      -- '次ラウンドの準備中...カード交換を行います。'
deriving DecidableEq, Repr

/-- An outbound send performed synchronously by a handler: an
`errorMessage` to the acting connection only, a room-wide broadcast, the
per-player `updateState` fan-out of `broadcastGameState`, the
`showContinueModal` sent only to the host, or the `seriesOver`
broadcast. -/
inductive OutMsg
  | errorToActor (r : RejectReason)
  | sysBroadcast (k : SysKind)
  | stateBroadcast
  | continueModalToHost
  | seriesOverBroadcast
deriving DecidableEq, Repr

/-- One iteration of the removal loop in the `playCards` handler
(lines 282-285): `findIndex` by suit+rank, then `splice(.., 1)` guarded
by `cardIndex > -1`. -/
def removeOne (hand : List Card) (c : Card) : List Card :=
  match hand.findIdx? (fun x => cardMatches x c) with
  | some i => hand.eraseIdx i
  | none => hand

/-- `data.cards.forEach(...)` of lines 282-285: remove each played card
from the hand in order. -/
def removeCards (hand : List Card) (cards : List Card) : List Card :=
  cards.foldl removeOne hand

/-- `players.find(p => p.id === pid)` followed by a role assignment on
the found object: sets the role of the first player with the given id,
if any (lines 318-323). -/
def setRoleFirst (ps : List Player) (pid : Option Nat) (r : Role) : List Player :=
  match pid with
  | none => ps
  | some targetId =>
    match ps.findIdx? (fun p => p.id == targetId) with
    | some j => ps.set j { ps.getD j default with role := r }
    | none => ps

/-- Total size of all hands. -/
def sumHands (players : List Player) : Nat :=
  (players.map (fun p => p.hand.length)).sum

/-- The `playCards` handler of src/server.js lines 275-345, entered with
the gates of lines 272-273 satisfied (actor seated, `state === 'playing'`,
actor is the current turn-holder); if a gate fails the handler returns
without doing anything.  Returns the mutated game and the ordered list
of sends.  The `setTimeout`-deferred `resetGame`/`handleCardExchange`
of the round-limit policy are scheduled, not run, so only the
synchronous mutations appear here. -/
def playCardsStep (g : Game) (cards : List Card) : Game × List OutMsg :=
  match g.players.get? g.turnIndex.toNat with
  | none => (g, [])
  | some actor =>
    if g.gameState ≠ GState.playing then (g, [])
    else
      match validatePlay cards actor.hand g.field with
      | .reject r => (g, [.errorToActor r])
      | .ok =>
        let i := g.turnIndex.toNat
        let newHand := removeCards actor.hand cards
        let players1 := g.players.set i { actor with hand := newHand, status := .playing }
        let has8 := cards.any (fun c => c.rank == Rank.r8)
        let g1 : Game :=
          { g with players := players1, field := cards,
                   lastPlay := some (actor.id, cards), passCount := 0 }
        let g2 : Game :=
          if has8 then { g1 with field := [], lastPlay := none }
          else { g1 with turnIndex := findNextPlayer1 players1 g1.turnIndex }
        let msgs8 : List OutMsg := if has8 then [.sysBroadcast .eightClear] else []
        if newHand.length = 0 then
          let ranks1 := g2.ranks ++ [actor.id]
          let players2 := players1.set i
            { actor with hand := newHand, status := .finished, rank := some ranks1.length }
          let playersLeft := players2.filter (fun p => p.status == PStatus.playing)
          if playersLeft.length ≤ 1 then
            -- lines 310-315: when exactly one 'playing' player is left, that
            -- player (the unique one, `playersLeft[0]`) is auto-finished;
            -- when zero are left the map below changes nothing.
            let players3 := players2.map (fun p =>
              if p.status == PStatus.playing then
                { p with status := .finished, rank := some (ranks1.length + 1) }
              else p)
            let ranks2 := ranks1 ++ playersLeft.map (fun p => p.id)
            -- lines 318-323: `daifugo`/`daifumin` are looked up by id before
            -- the role reset but mutated after it, which is the same as
            -- resetting all roles first and then assigning by id.
            let players4 := players3.map (fun p => { p with role := Role.commoner })
            let players5 := setRoleFirst players4 ranks2.head? .richest
            let players6 :=
              if 2 < players5.length then setRoleFirst players5 ranks2.getLast? .poorest
              else players5
            let gs := g.gameSettings
            let gEnd : Game :=
              { g2 with players := players6, ranks := ranks2, gameState := .finished }
            if gs.limit ≠ 0 ∧ gs.limit ≤ g.gameCount then
              (gEnd, msgs8 ++ [.sysBroadcast .finishedAnnounce, .stateBroadcast,
                               .seriesOverBroadcast])
            else if gs.limit = 0 then
              let modal : List OutMsg :=
                match gs.hostId with
                | some hid =>
                  if players6.any (fun p => p.id == hid) then [.continueModalToHost] else []
                | none => []
              (gEnd, msgs8 ++ [.sysBroadcast .finishedAnnounce, .stateBroadcast] ++ modal)
            else
              ({ gEnd with gameState := .exchange },
               msgs8 ++ [.sysBroadcast .finishedAnnounce, .stateBroadcast,
                         .sysBroadcast .exchangePrep])
          else
            -- line 341: the turn is advanced (again, for a non-8 play) from
            -- the turnIndex already stored in `g2`.
            ({ g2 with players := players2, ranks := ranks1,
                       turnIndex := findNextPlayer1 players2 g2.turnIndex },
             msgs8 ++ [.sysBroadcast .finishedAnnounce, .stateBroadcast])
        else
          (g2, msgs8 ++ [.stateBroadcast])

/-- The `pass` handler of src/server.js lines 347-370, entered under the
same gates as `playCardsStep`. -/
def passStep (g : Game) : Game × List OutMsg :=
  match g.players.get? g.turnIndex.toNat with
  | none => (g, [])
  | some actor =>
    if g.gameState ≠ GState.playing then (g, [])
    else
      let i := g.turnIndex.toNat
      let players1 := g.players.set i { actor with status := .passed }
      let pc := g.passCount + 1
      let active := players1.filter (fun p => p.status == PStatus.playing)
      if active.length ≤ pc then
        let players2 := players1.map (fun p =>
          if p.rank == none then { p with status := PStatus.playing } else p)
        let turn' : Int :=
          match g.lastPlay with
          | some lp =>
            match players2.findIdx? (fun p => p.id == lp.1) with
            | some j =>
              if (players2.getD j default).status ≠ PStatus.finished then (j : Int)
              else findNextPlayer1 players2 g.turnIndex
            | none => findNextPlayer1 players2 g.turnIndex
          | none => findNextPlayer1 players2 g.turnIndex
        ({ g with players := players2, field := [], passCount := 0,
                  lastPlay := none, turnIndex := turn' },
         [.sysBroadcast .allPass, .stateBroadcast])
      else
        ({ g with players := players1, passCount := pc,
                  turnIndex := findNextPlayer1 players1 g.turnIndex },
         [.stateBroadcast])

/-- `resetGame(false)` of src/server.js lines 120-138. -/
def emptyGame : Game :=
  { players := [], gameState := .waiting, turnIndex := -1, field := [],
    lastPlay := none, passCount := 0, gameCount := 0,
    gameSettings := { limit := 0, hostId := none }, ranks := [] }

/-- The `ws.on('close')` handler of src/server.js lines 386-406: remove
the player, reassign the host to the first remaining seat if the host
left and seats remain, and `resetGame(false)` when fewer than 2 players
remain outside the waiting state. -/
def removePlayerStep (g : Game) (wsId : Nat) : Game :=
  match g.players.findIdx? (fun p => p.id == wsId) with
  | none => g
  | some i =>
    let removed := g.players.getD i default
    let players1 := g.players.eraseIdx i
    let g1 : Game := { g with players := players1 }
    let g2 : Game :=
      if g1.gameSettings.hostId = some removed.id then
        match players1.head? with
        | some p0 => { g1 with gameSettings := { g1.gameSettings with hostId := some p0.id } }
        | none => g1
      else g1
    if players1.length < 2 ∧ g2.gameState ≠ GState.waiting then emptyGame else g2

/-- The hand transfers of `handleCardExchange` (src/server.js lines
218-227) on the richest (daifugo) and poorest (daifumin) hands:
sort the poorest hand and `splice` off its last two cards, push them
onto the richest hand, re-sort it, `splice(0, 2)` off its (new) first
two cards, push those onto the poorest hand, and sort both.  JS
`splice(len - 2, 2)` removes `drop (len - 2)` and keeps
`take (len - 2)` for every length (including 0 and 1). -/
def exchangeHands (dgHand dmHand : List Card) : List Card × List Card :=
  let dmS := sortHand dmHand
  let give := dmS.drop (dmS.length - 2)
  let dmRest := dmS.take (dmS.length - 2)
  let comb := sortHand (dgHand ++ give)
  let ret := comb.take 2
  let dgRest := comb.drop 2
  (sortHand dgRest, sortHand (dmRest ++ ret))

/-- `handleCardExchange` of src/server.js lines 209-233.  The returned
flag is `true` when the exchange ran (after which a deferred
`startNextRound` is scheduled) and `false` when it was skipped and
`startNextRound()` was called directly. -/
def handleCardExchange (g : Game) : Game × Bool :=
  match g.players.findIdx? (fun p => p.role == Role.richest),
        g.players.findIdx? (fun p => p.role == Role.poorest) with
  | some di, some mi =>
    if g.players.length < 2 then (g, false)
    else
      let dg := g.players.getD di default
      let dm := g.players.getD mi default
      let hs := exchangeHands dg.hand dm.hand
      let players1 := (g.players.set di { dg with hand := hs.1 }).set mi { dm with hand := hs.2 }
      ({ g with players := players1, gameState := .playing }, true)
  | _, _ => (g, false)

/-! ## Helper lemmas about `validatePlay` -/

lemma any_missing_eq_false (cards hand : List Card)
    (h : ∀ c ∈ cards, ∃ hc ∈ hand, hc.suit = c.suit ∧ hc.rank = c.rank) :
    cards.any (fun c => !(hand.any (fun hh => cardMatches hh c))) = false := by
  simp only [List.any_eq_false, Bool.not_eq_true', Bool.not_eq_false, List.any_eq_true]
  intro c hc
  obtain ⟨hc', hmem, hsuit, hrank⟩ := h c hc
  intro hall
  exact absurd (by simp [cardMatches, hsuit, hrank] : cardMatches hc' c = true) (by simpa using hall hc' hmem)

lemma any_mixed_eq_false (cards : List Card)
    (h : ∀ c ∈ cards, c.rank = Rank.joker ∨ c.rank = anchorRank cards) :
    cards.any (fun c => c.rank != Rank.joker && c.rank != anchorRank cards) = false := by
  simp only [List.any_eq_false, Bool.and_eq_true, bne_iff_ne, ne_eq, Bool.not_eq_true,
    Bool.and_eq_false_iff, bne_eq_false_iff_eq]
  intro c hc
  rcases h c hc with h1 | h1
  · exact fun hcon => hcon.1 h1
  · exact fun hcon => hcon.2 h1

/-! ## Claim C2 -/

/-- C2 counterexample: the claim says an attempt holding more copies of
a suit+rank card than the hand does must be rejected with
CardNotInHand; but `validatePlay` checks each attempt card against the
whole hand independently, so the attempt `[3♠, 3♠]` against the
one-card hand `[3♠]` is accepted. -/
theorem duplicate_attempt_accepted :
    validatePlay [mkCard .s .r3, mkCard .s .r3] [mkCard .s .r3] [] = .ok := by decide

/-- C2 (amended): the validator rejects with CardNotInHand exactly the
attempts containing a card whose suit+rank appears nowhere in the hand;
duplicates in the attempt are each checked independently against the
whole hand, so copies beyond the hand's count are not rejected. -/
theorem validatePlay_rejects_missing_card (cards hand field : List Card)
    (hne : cards ≠ [])
    (hmiss : ∃ c ∈ cards, ∀ hc ∈ hand, ¬(hc.suit = c.suit ∧ hc.rank = c.rank)) :
    validatePlay cards hand field = .reject .cardNotInHand := by
  unfold validatePlay
  rw [if_neg (by simpa using hne), if_pos]
  obtain ⟨c, hc, hall⟩ := hmiss
  refine List.any_eq_true.mpr ⟨c, hc, ?_⟩
  simp only [Bool.not_eq_true', List.any_eq_false]
  intro hc' hmem
  simpa [cardMatches] using hall hc' hmem

/-- Witness for C2's amended theorem. -/
theorem validatePlay_rejects_missing_card_witness :
    validatePlay [mkCard .s .r4] [mkCard .s .r3] [] = .reject .cardNotInHand :=
  validatePlay_rejects_missing_card _ _ _ (by decide)
    ⟨mkCard .s .r4, by decide, by decide⟩

/-! ## Claim C6 -/

/-- C6: for an attempt that passed the emptiness, membership and
same-rank checks, against a non-empty field: a count mismatch is
rejected with CountMismatch, and with matching counts the attempt is
accepted exactly when its anchor value strictly exceeds the field's
anchor value, being rejected with TooWeak when it is equal or lower. -/
theorem validatePlay_field_comparison (cards hand field : List Card)
    (hfne : field ≠ []) (hcne : cards ≠ [])
    (hmem : ∀ c ∈ cards, ∃ hc ∈ hand, hc.suit = c.suit ∧ hc.rank = c.rank)
    (hrank : ∀ c ∈ cards, c.rank = Rank.joker ∨ c.rank = anchorRank cards) :
    (cards.length ≠ field.length →
      validatePlay cards hand field = .reject (.countMismatch field.length)) ∧
    (cards.length = field.length →
      (validatePlay cards hand field = .ok ↔
        rankValue (anchorCard field).rank < rankValue (anchorRank cards)) ∧
      (rankValue (anchorRank cards) ≤ rankValue (anchorCard field).rank →
        validatePlay cards hand field = .reject .tooWeak)) := by
  have hlen : ¬ cards.length = 0 := by
    simpa [List.length_eq_zero] using hcne
  unfold validatePlay
  rw [if_neg hlen, if_neg (by simp [any_missing_eq_false cards hand hmem]),
    if_neg (by simp [any_mixed_eq_false cards hrank]),
    if_pos (by simpa [List.length_pos] using hfne)]
  constructor
  · intro hne'
    rw [if_pos hne']
  · intro heq
    rw [if_neg (by omega)]
    constructor
    · constructor
      · intro hok
        by_contra hlt
        rw [if_pos (by omega)] at hok
        exact VResult.noConfusion hok
      · intro hlt
        rw [if_neg (by omega)]
    · intro hle
      rw [if_pos hle]

/-- Witness for C6's theorem: a single 9♠ against a field of 3♠. -/
theorem validatePlay_field_comparison_witness :
    validatePlay [mkCard .s .r9] [mkCard .s .r9] [mkCard .s .r3] = .ok := by
  have h := validatePlay_field_comparison [mkCard .s .r9] [mkCard .s .r9] [mkCard .s .r3]
    (by decide) (by decide)
    (by intro c hc; refine ⟨mkCard .s .r9, List.mem_singleton_self _, ?_⟩
        simp at hc; simp [hc])
    (by intro c hc; simp at hc; subst hc; right; decide)
  exact ((h.2 (by decide)).1).mpr (by decide)

/-! ## Claim C7 -/

/-- C7: a `playCards` attempt the validator rejects leaves the whole
room state unchanged and produces exactly one send, the `errorMessage`
to the acting player's connection — no broadcast. -/
theorem reject_leaves_state_unchanged (g : Game) (cards : List Card)
    (actor : Player) (r : RejectReason)
    (hact : g.players.get? g.turnIndex.toNat = some actor)
    (hstate : g.gameState = GState.playing)
    (hrej : validatePlay cards actor.hand g.field = .reject r) :
    playCardsStep g cards = (g, [.errorToActor r]) := by
  unfold playCardsStep
  rw [hact]
  simp [hstate, hrej]

/-- Sample players used by the concrete game states below. -/
def pSimple (i : Nat) (h : List Card) : Player :=
  { id := i, name := "", hand := h, status := .playing, role := .commoner, rank := none }

/-- A 2-player mid-round state: player 0 to move, field `[3♠]`. -/
def gW7 : Game :=
  { players := [pSimple 0 [mkCard .s .r9], pSimple 1 [mkCard .c .r5]],
    gameState := .playing, turnIndex := 0, field := [mkCard .s .r3],
    lastPlay := some (1, [mkCard .s .r3]), passCount := 0, gameCount := 1,
    gameSettings := { limit := 0, hostId := some 0 }, ranks := [] }

/-- Witness for C7's theorem: an attempt with a card not in hand. -/
theorem reject_leaves_state_unchanged_witness :
    playCardsStep gW7 [mkCard .s .rK] = (gW7, [.errorToActor .cardNotInHand]) :=
  reject_leaves_state_unchanged gW7 [mkCard .s .rK] (pSimple 0 [mkCard .s .r9])
    .cardNotInHand (by decide) (by decide) (by decide)

/-! ## Claim C3 -/

/-- 3-player state: player 0 holds only an 8 and is to move. -/
def gC3x : Game :=
  { players := [pSimple 0 [mkCard .s .r8], pSimple 1 [mkCard .s .r3],
                pSimple 2 [mkCard .s .r4]],
    gameState := .playing, turnIndex := 0, field := [], lastPlay := none,
    passCount := 0, gameCount := 1,
    gameSettings := { limit := 0, hostId := some 0 }, ranks := [] }

/-- C3 counterexample: the claim says an 8-play leaves `turnIndex`
unchanged regardless of whether the hand empties; but when player 0
plays their last card 8♠ (a valid play, and an 8), the hand-empty
branch runs `findNextPlayer` and the turn advances from 0 to 1. -/
theorem eight_clear_turn_advances_on_finish :
    validatePlay [mkCard .s .r8] (pSimple 0 [mkCard .s .r8]).hand gC3x.field = .ok ∧
    gC3x.turnIndex = 0 ∧
    (playCardsStep gC3x [mkCard .s .r8]).1.turnIndex = 1 := by decide

/-- C3 (amended): a successful play containing an 8 always clears the
field and `lastPlay`; the turn stays with the actor provided the play
does not empty their hand (when it does, the player finishes and the
turn advances or the round ends). -/
theorem eight_clear_spec (g : Game) (cards : List Card) (actor : Player)
    (hact : g.players.get? g.turnIndex.toNat = some actor)
    (hstate : g.gameState = GState.playing)
    (hok : validatePlay cards actor.hand g.field = .ok)
    (h8 : cards.any (fun c => c.rank == Rank.r8) = true) :
    (playCardsStep g cards).1.field = [] ∧
    (playCardsStep g cards).1.lastPlay = none ∧
    (removeCards actor.hand cards ≠ [] →
      (playCardsStep g cards).1.turnIndex = g.turnIndex) := by
  unfold playCardsStep
  rw [hact]
  simp only [hstate, ne_eq, reduceCtorEq, not_false_eq_true, if_true, if_false,
    ite_not, hok, h8, if_pos]
  split
  · next hempty =>
    refine ⟨?_, ?_, fun hne => absurd (List.length_eq_zero.mp hempty) hne⟩ <;>
      (split <;> [skip; rfl]) <;> (split <;> [skip; split] <;> rfl)
  · exact ⟨rfl, rfl, fun _ => rfl⟩

/-- 2-player state: player 0 holds 8♠ and 3♥ and is to move. -/
def gW3 : Game :=
  { players := [pSimple 0 [mkCard .s .r8, mkCard .h .r3], pSimple 1 [mkCard .s .r3]],
    gameState := .playing, turnIndex := 0, field := [], lastPlay := none,
    passCount := 0, gameCount := 1,
    gameSettings := { limit := 0, hostId := some 0 }, ranks := [] }

/-- Witness for C3's amended theorem. -/
theorem eight_clear_spec_witness :
    (playCardsStep gW3 [mkCard .s .r8]).1.field = [] ∧
    (playCardsStep gW3 [mkCard .s .r8]).1.lastPlay = none ∧
    (playCardsStep gW3 [mkCard .s .r8]).1.turnIndex = gW3.turnIndex := by
  have h := eight_clear_spec gW3 [mkCard .s .r8]
    (pSimple 0 [mkCard .s .r8, mkCard .h .r3]) (by decide) (by decide)
    (by decide) (by decide)
  exact ⟨h.1, h.2.1, h.2.2 (by decide)⟩

/-! ## Circular-scan lemmas for the turn sequencer (claims C4, C10) -/

/-- Forward circular distance from seat `a` to seat `b` in a table of
`len` seats. -/
def circDist (len a b : Nat) : Nat := if a ≤ b then b - a else b + len - a

lemma circDist_lt (len a b : Nat) (ha : a < len) (hb : b < len) :
    circDist len a b < len := by
  unfold circDist; split <;> omega

lemma circDist_step (len a b : Nat) (ha : a < len) (hb : b < len) (hne : a ≠ b) :
    circDist len ((a + 1) % len) b + 1 = circDist len a b := by
  rcases Nat.lt_or_ge (a + 1) len with h1 | h1
  · rw [Nat.mod_eq_of_lt h1]
    unfold circDist; split <;> split <;> omega
  · have he : a + 1 = len := by omega
    rw [he, Nat.mod_self]
    unfold circDist; split <;> split <;> omega

lemma isPlayingAt_spec (players : List Player) (i : Nat)
    (h : isPlayingAt players i = true) :
    ∃ p, players.get? i = some p ∧ p.status = PStatus.playing := by
  unfold isPlayingAt at h
  cases hg : players.get? i with
  | none => rw [hg] at h; cases h
  | some p => rw [hg] at h; exact ⟨p, rfl, by simpa using h⟩

lemma isPlayingAt_false_of_none (players : List Player)
    (hnone : ∀ p ∈ players, p.status ≠ PStatus.playing) :
    ∀ i, isPlayingAt players i = false := by
  intro i
  unfold isPlayingAt
  cases hg : players.get? i with
  | none => rfl
  | some p => simpa using hnone p (List.get?_mem hg)

lemma exists_playing_index (players : List Player)
    (h : ∃ p ∈ players, p.status = PStatus.playing) :
    ∃ j, j < players.length ∧ isPlayingAt players j = true := by
  obtain ⟨p, hp, hst⟩ := h
  obtain ⟨j, rfl⟩ := List.mem_iff_get.mp hp
  refine ⟨j, j.isLt, ?_⟩
  unfold isPlayingAt
  rw [List.get?_eq_get j.isLt]
  simpa using hst

lemma scanLoop_some_playing (players : List Player) :
    ∀ fuel start i, scanLoop players start fuel = some i →
      isPlayingAt players i = true := by
  intro fuel
  induction fuel with
  | zero => intro start i h; simp [scanLoop] at h
  | succ n ih =>
    intro start i h
    unfold scanLoop at h
    split at h
    · next hpl => cases h; exact hpl
    · exact ih _ _ h

lemma scanLoop_finds (players : List Player) (j : Nat)
    (hj : j < players.length) (hpl : isPlayingAt players j = true) :
    ∀ fuel start, start < players.length →
      circDist players.length start j < fuel →
      (scanLoop players start fuel).isSome := by
  intro fuel
  induction fuel with
  | zero => intro start _ hd; omega
  | succ n ih =>
    intro start hs hd
    unfold scanLoop
    split
    · simp
    · next hnp =>
      have hne : start ≠ j := by
        intro he; subst he; exact hnp hpl
      have hstep := circDist_step players.length start j hs hj hne
      exact ih ((start + 1) % players.length) (Nat.mod_lt _ (by omega)) (by omega)

lemma fnpLoop_exhausts (players : List Player)
    (hnone : ∀ i, isPlayingAt players i = false) :
    ∀ fuel start cc, players.length ≤ cc + fuel →
      players.length ≤ (fnpLoop players start cc fuel).2 := by
  intro fuel
  induction fuel with
  | zero => intro start cc h; unfold fnpLoop; omega
  | succ n ih =>
    intro start cc h
    unfold fnpLoop
    rw [hnone start]
    simp only [Bool.false_or]
    by_cases hc : players.length ≤ cc
    · simp [hc]
    · rw [if_neg (by simpa using hc)]
      exact ih _ (cc + 1) (by omega)

lemma fnpLoop_finds (players : List Player) (j : Nat)
    (hj : j < players.length) (hpl : isPlayingAt players j = true) :
    ∀ fuel start cc, start < players.length →
      circDist players.length start j < fuel →
      circDist players.length start j + cc < players.length →
      (fnpLoop players start cc fuel).2 < players.length ∧
        isPlayingAt players (fnpLoop players start cc fuel).1 = true := by
  intro fuel
  induction fuel with
  | zero => intro start cc _ hd; omega
  | succ n ih =>
    intro start cc hs hd hsum
    unfold fnpLoop
    by_cases hp : isPlayingAt players start = true
    · rw [if_pos (by simp [hp])]
      exact ⟨by omega, hp⟩
    · have hne : start ≠ j := by
        intro he; subst he; exact hp hpl
      have hstep := circDist_step players.length start j hs hj hne
      rw [if_neg (by simp [hp]; omega)]
      exact ih ((start + 1) % players.length) (cc + 1)
        (Nat.mod_lt _ (by omega)) (by omega) (by omega)

/-! ## Claim C4 -/

/-- C4: both turn-sequencer variants (the guard variant of
src/unnamed/part_001 lines 323-333 and the checked-count variant of
src/server.js lines 141-150) return `-1` exactly when no player has
status `playing`, and whenever they return a non-negative index that
index holds a `playing` player.  `fromIndex ≥ -1` is the domain on
which the JS `%` agrees with the embedding (it is all the code ever
passes). -/
theorem findNextPlayer_spec (players : List Player) (c : Int) (_hc : -1 ≤ c) :
    ((findNextPlayer players c = -1 ↔ ∀ p ∈ players, p.status ≠ PStatus.playing) ∧
      ∀ i : Nat, findNextPlayer players c = (i : Int) →
        ∃ p, players.get? i = some p ∧ p.status = PStatus.playing) ∧
    ((findNextPlayer1 players c = -1 ↔ ∀ p ∈ players, p.status ≠ PStatus.playing) ∧
      ∀ i : Nat, findNextPlayer1 players c = (i : Int) →
        ∃ p, players.get? i = some p ∧ p.status = PStatus.playing) := by
  by_cases hnone : ∀ p ∈ players, p.status ≠ PStatus.playing
  · have hfilter : (players.filter (fun p => p.status == PStatus.playing)).length = 0 := by
      simp only [List.length_eq_zero, List.filter_eq_nil_iff]
      intro p hp
      simpa using hnone p hp
    have h1 : findNextPlayer players c = -1 := by
      unfold findNextPlayer
      by_cases hlen : players.length = 0
      · rw [if_pos hlen]
      · rw [if_neg hlen, if_pos hfilter]
    have h2 : findNextPlayer1 players c = -1 := by
      unfold findNextPlayer1
      by_cases hlen : players.length = 0
      · rw [if_pos hlen]
      · rw [if_neg hlen]
        have := fnpLoop_exhausts players (isPlayingAt_false_of_none players hnone)
          (players.length + 1) (((c + 1).toNat) % players.length) 0 (by omega)
        simp only [if_pos this]
    refine ⟨⟨⟨fun _ => hnone, fun _ => h1⟩, ?_⟩, ⟨fun _ => hnone, fun _ => h2⟩, ?_⟩
    · intro i hi
      rw [h1] at hi; omega
    · intro i hi
      rw [h2] at hi; omega
  · push_neg at hnone
    obtain ⟨p0, hp0, hst0⟩ := hnone
    have hex : ∃ p ∈ players, p.status = PStatus.playing := ⟨p0, hp0, hst0⟩
    obtain ⟨j, hj, hplj⟩ := exists_playing_index players hex
    have hlen : players.length ≠ 0 := by omega
    have hstart : ((c + 1).toNat) % players.length < players.length :=
      Nat.mod_lt _ (by omega)
    -- part_001 variant
    have hfilter : (players.filter (fun p => p.status == PStatus.playing)).length ≠ 0 := by
      simp only [ne_eq, List.length_eq_zero, List.filter_eq_nil_iff]
      push_neg
      exact ⟨p0, hp0, by simp [hst0]⟩
    have hscan := scanLoop_finds players j hj hplj players.length
      (((c + 1).toNat) % players.length) hstart
      (circDist_lt players.length _ j hstart hj)
    obtain ⟨k, hk⟩ := Option.isSome_iff_exists.mp hscan
    have hres : findNextPlayer players c = (k : Int) := by
      unfold findNextPlayer
      rw [if_neg hlen, if_neg hfilter, hk]
    have hkpl := scanLoop_some_playing players players.length _ k hk
    -- checked-count variant
    have hfnp := fnpLoop_finds players j hj hplj (players.length + 1)
      (((c + 1).toNat) % players.length) 0 hstart
      (by have := circDist_lt players.length (((c + 1).toNat) % players.length) j hstart hj; omega)
      (by have := circDist_lt players.length (((c + 1).toNat) % players.length) j hstart hj; omega)
    have hres1 : findNextPlayer1 players c =
        ((fnpLoop players (((c + 1).toNat) % players.length) 0 (players.length + 1)).1 : Int) := by
      unfold findNextPlayer1
      rw [if_neg hlen, if_neg (by omega)]
    constructor
    · constructor
      · constructor
        · intro hm1
          rw [hres] at hm1; omega
        · intro hall
          exact absurd hst0 (hall p0 hp0)
      · intro i hi
        rw [hres] at hi
        have : k = i := by omega
        subst this
        exact isPlayingAt_spec players k hkpl
    · constructor
      · constructor
        · intro hm1
          rw [hres1] at hm1; omega
        · intro hall
          exact absurd hst0 (hall p0 hp0)
      · intro i hi
        rw [hres1] at hi
        have heq : (fnpLoop players (((c + 1).toNat) % players.length) 0 (players.length + 1)).1 = i := by
          omega
        exact isPlayingAt_spec players i (heq ▸ hfnp.2)

/-- Players of the C4/C10 witnesses: both `playing`. -/
def wPlayers : List Player := [pSimple 0 [], pSimple 1 []]

/-- Players of the C4/C10 witnesses: none `playing`. -/
def wNonePlayers : List Player :=
  [{ pSimple 0 [] with status := PStatus.passed },
   { pSimple 1 [] with status := PStatus.finished }]

/-- Witness for C4's theorem. -/
theorem findNextPlayer_spec_witness :
    (∃ p, wPlayers.get? 1 = some p ∧ p.status = PStatus.playing) ∧
    (findNextPlayer1 wNonePlayers 0 = -1 ↔
      ∀ p ∈ wNonePlayers, p.status ≠ PStatus.playing) := by
  have h := findNextPlayer_spec wPlayers 0 (by omega)
  have h' := findNextPlayer_spec wNonePlayers 0 (by omega)
  exact ⟨h.1.2 1 (by decide), h'.2.1⟩

/-! ## Claim C10 -/

/-- C10: `findNextPlayer` is total: the `-1` answer comes from the
explicit active-player guard, and once that guard has passed (some
player has status `playing`) the unbounded circular `while` loop, run
with `players.length` fuel from any in-range start, provably stops —
i.e. the scan reaches a `playing` player within `players.length`
steps. -/
theorem findNextPlayer_terminating (players : List Player) (c : Int) :
    ((∀ p ∈ players, p.status ≠ PStatus.playing) → findNextPlayer players c = -1) ∧
    (∀ start, start < players.length →
      (∃ p ∈ players, p.status = PStatus.playing) →
      (scanLoop players start players.length).isSome) := by
  constructor
  · intro hnone
    unfold findNextPlayer
    by_cases hlen : players.length = 0
    · rw [if_pos hlen]
    · rw [if_neg hlen, if_pos]
      simp only [List.length_eq_zero, List.filter_eq_nil_iff]
      intro p hp
      simpa using hnone p hp
  · intro start hstart hex
    obtain ⟨j, hj, hplj⟩ := exists_playing_index players hex
    exact scanLoop_finds players j hj hplj players.length start hstart
      (circDist_lt players.length start j hstart hj)

/-- Witness for C10's theorem. -/
theorem findNextPlayer_terminating_witness :
    findNextPlayer wNonePlayers 5 = -1 ∧
    (scanLoop wPlayers 0 wPlayers.length).isSome :=
  ⟨(findNextPlayer_terminating wNonePlayers 5).1 (by decide),
   (findNextPlayer_terminating wPlayers 0).2 0 (by decide)
     ⟨pSimple 0 [], by decide, rfl⟩⟩

/-! ## Hand-removal and hand-sum lemmas (claim C1) -/

lemma removeOne_cons (a : Card) (as : List Card) (c : Card) :
    removeOne (a :: as) c = if cardMatches a c then as else a :: removeOne as c := by
  unfold removeOne
  rw [List.findIdx?_cons]
  by_cases hpa : cardMatches a c
  · simp [hpa, List.eraseIdx]
  · rw [if_neg (by simpa using hpa), if_neg (by simpa using hpa)]
    cases hfi : as.findIdx? (fun x => cardMatches x c) with
    | none => simp [hfi]
    | some i => simp [hfi, List.eraseIdx_cons_succ]

lemma removeOne_length (hand : List Card) (c : Card)
    (hex : ∃ h ∈ hand, cardMatches h c = true) :
    (removeOne hand c).length + 1 = hand.length := by
  induction hand with
  | nil => rcases hex with ⟨h, hh, _⟩; cases hh
  | cons a as ih =>
    rw [removeOne_cons]
    by_cases hpa : cardMatches a c
    · simp [hpa]
    · rcases hex with ⟨h, hh, hph⟩
      rcases List.mem_cons.mp hh with rfl | hh'
      · exact absurd hph hpa
      · rw [if_neg hpa]
        have := ih ⟨h, hh', hph⟩
        simp only [List.length_cons]
        omega

lemma removeOne_preserves (hand : List Card) (c c' : Card)
    (hne : ¬(c'.suit = c.suit ∧ c'.rank = c.rank))
    (hex : ∃ h ∈ hand, cardMatches h c' = true) :
    ∃ h ∈ removeOne hand c, cardMatches h c' = true := by
  induction hand with
  | nil => rcases hex with ⟨h, hh, _⟩; cases hh
  | cons a as ih =>
    rw [removeOne_cons]
    by_cases hpa : cardMatches a c
    · rw [if_pos hpa]
      rcases hex with ⟨h, hh, hph⟩
      rcases List.mem_cons.mp hh with rfl | hh'
      · exfalso
        simp only [cardMatches, Bool.and_eq_true, beq_iff_eq] at hpa hph
        exact hne ⟨hph.1 ▸ hpa.1, hph.2 ▸ hpa.2⟩
      · exact ⟨h, hh', hph⟩
    · rw [if_neg hpa]
      rcases hex with ⟨h, hh, hph⟩
      rcases List.mem_cons.mp hh with rfl | hh'
      · exact ⟨h, List.mem_cons_self _ _, hph⟩
      · obtain ⟨h2, hh2, hph2⟩ := ih ⟨h, hh', hph⟩
        exact ⟨h2, List.mem_cons_of_mem _ hh2, hph2⟩

/-- Removing a duplicate-free list of cards that are all present in the
hand removes exactly one card per played card. -/
lemma removeCards_length : ∀ (cards hand : List Card),
    (∀ c ∈ cards, ∃ h ∈ hand, cardMatches h c = true) →
    cards.Pairwise (fun a b => ¬(a.suit = b.suit ∧ a.rank = b.rank)) →
    (removeCards hand cards).length + cards.length = hand.length := by
  intro cards
  induction cards with
  | nil => intro hand _ _; simp [removeCards]
  | cons c cs ih =>
    intro hand hmem hpw
    have hex : ∃ h ∈ hand, cardMatches h c = true := hmem c (List.mem_cons_self _ _)
    rw [List.pairwise_cons] at hpw
    have hmem' : ∀ c' ∈ cs, ∃ h ∈ removeOne hand c, cardMatches h c' = true := by
      intro c' hc'
      exact removeOne_preserves hand c c'
        (fun hcon => hpw.1 c' hc' ⟨hcon.1.symm, hcon.2.symm⟩)
        (hmem c' (List.mem_cons_of_mem _ hc'))
    have h1 := removeOne_length hand c hex
    have h2 := ih (removeOne hand c) hmem' hpw.2
    have hstep : removeCards hand (c :: cs) = removeCards (removeOne hand c) cs := by
      simp [removeCards]
    rw [hstep]
    simp only [List.length_cons]
    omega

/-- The membership stage of a successful validation. -/
lemma validatePlay_ok_mem (cards hand field : List Card)
    (hok : validatePlay cards hand field = .ok) :
    ∀ c ∈ cards, ∃ h ∈ hand, cardMatches h c = true := by
  intro c hc
  by_contra hnone
  push_neg at hnone
  have hany : cards.any (fun c => !(hand.any (fun h => cardMatches h c))) = true := by
    refine List.any_eq_true.mpr ⟨c, hc, ?_⟩
    simp only [Bool.not_eq_true', List.any_eq_false]
    intro hc' hmem
    exact hnone hc' hmem
  unfold validatePlay at hok
  rw [if_neg (by simpa [List.length_eq_zero] using List.ne_nil_of_mem hc),
    if_pos hany] at hok
  cases hok

lemma sumHands_nil : sumHands [] = 0 := rfl

lemma sumHands_cons (p : Player) (ps : List Player) :
    sumHands (p :: ps) = p.hand.length + sumHands ps := by
  simp [sumHands]

lemma sumHands_set (players : List Player) :
    ∀ (i : Nat) (actor p : Player), players.get? i = some actor →
    sumHands (players.set i p) + actor.hand.length =
      sumHands players + p.hand.length := by
  induction players with
  | nil => intro i actor p hget; cases hget
  | cons a as ih =>
    intro i actor p hget
    cases i with
    | zero =>
      simp only [List.get?] at hget
      cases hget
      simp only [List.set, sumHands_cons]
      omega
    | succ n =>
      simp only [List.get?] at hget
      have := ih n actor p hget
      simp only [List.set, sumHands_cons]
      omega

lemma sumHands_map (players : List Player) (f : Player → Player)
    (hf : ∀ p, ((f p).hand).length = (p.hand).length) :
    sumHands (players.map f) = sumHands players := by
  induction players with
  | nil => rfl
  | cons a as ih => simp only [List.map_cons, sumHands_cons, hf, ih]

lemma findIdx?_lt_length {α : Type} (p : α → Bool) (l : List α) (i : Nat)
    (h : l.findIdx? p = some i) : i < l.length :=
  (List.findIdx?_eq_some_iff_findIdx_eq.mp h).1

lemma sumHands_set_hand_eq (ps : List Player) (j : Nat) (q p : Player)
    (hget : ps.get? j = some q) (hh : p.hand.length = q.hand.length) :
    sumHands (ps.set j p) = sumHands ps := by
  have := sumHands_set ps j q p hget
  omega

lemma sumHands_setRoleFirst (ps : List Player) (pid : Option Nat) (r : Role) :
    sumHands (setRoleFirst ps pid r) = sumHands ps := by
  cases pid with
  | none => rfl
  | some targetId =>
    cases hfi : ps.findIdx? (fun p => p.id == targetId) with
    | none => simp [setRoleFirst, hfi]
    | some j =>
      have hj := findIdx?_lt_length _ ps j hfi
      have hget : ps.get? j = some (ps.getD j default) := by
        rw [List.get?_eq_getElem?, List.getD_eq_getElem?_getD]
        cases hg : ps[j]? with
        | none => exact absurd (List.getElem?_eq_none_iff.mp hg) (by omega)
        | some q => rfl
      simp only [setRoleFirst, hfi]
      exact sumHands_set_hand_eq ps j _ _ hget rfl

lemma get?_set_self {α : Type} :
    ∀ (l : List α) (i : Nat) (a : α), i < l.length → (l.set i a).get? i = some a := by
  intro l
  induction l with
  | nil => intro i a h; simp at h
  | cons x xs ih =>
    intro i a h
    cases i with
    | zero => rfl
    | succ n =>
      simp only [List.set, List.get?]
      exact ih n a (by simpa using h)

lemma get?_lt_length {α : Type} (l : List α) (i : Nat) (a : α)
    (h : l.get? i = some a) : i < l.length := by
  by_contra hge
  rw [List.get?_eq_none.mpr (by omega)] at h
  cases h

lemma sumHands_commonerMap (ps : List Player) :
    sumHands (ps.map (fun p => { p with role := Role.commoner })) = sumHands ps :=
  sumHands_map _ _ (fun _ => rfl)

lemma sumHands_set_set (ps : List Player) (j : Nat) (p q : Player)
    (hj : j < ps.length) (hh : q.hand.length = p.hand.length) :
    sumHands ((ps.set j p).set j q) = sumHands (ps.set j p) :=
  sumHands_set_hand_eq (ps.set j p) j p q (get?_set_self ps j p hj) hh

lemma sumHands_finishMap (ps : List Player) (rk : Nat) :
    sumHands (ps.map (fun p =>
      if p.status == PStatus.playing then
        { p with status := PStatus.finished, rank := some rk }
      else p)) = sumHands ps :=
  sumHands_map _ _ (fun p => by
    by_cases hst : p.status == PStatus.playing <;> simp [hst])

/-! ## Claim C1 -/

/-- A reachable-shaped 53-card position: after the opening single 3♠ the
two hands hold 26 cards each and the field one card. -/
def gC1 : Game :=
  { players := [pSimple 0 (mkCard .s .r9 :: List.replicate 25 (mkCard .h .r4)),
                pSimple 1 (List.replicate 26 (mkCard .c .r5))],
    gameState := .playing, turnIndex := 0, field := [mkCard .s .r3],
    lastPlay := some (1, [mkCard .s .r3]), passCount := 0, gameCount := 1,
    gameSettings := { limit := 0, hostId := some 1 }, ranks := [] }

/-- C1 counterexample: in a `playing` state whose hands-plus-field total
is 53, a valid `playCards` (9♠ beating the 3♠ on the field) drops the
total to 52 — the covered field card is discarded, not moved, so the
claimed conservation fails. -/
theorem cardConservation_counterexample :
    sumHands gC1.players + gC1.field.length = 53 ∧
    gC1.gameState = GState.playing ∧
    validatePlay [mkCard .s .r9]
      (pSimple 0 (mkCard .s .r9 :: List.replicate 25 (mkCard .h .r4))).hand
      gC1.field = .ok ∧
    sumHands (playCardsStep gC1 [mkCard .s .r9]).1.players +
      (playCardsStep gC1 [mkCard .s .r9]).1.field.length = 52 := by decide

/-- C1 (amended): cards are never created, but hands-plus-field is not
conserved either: a successful `playCards` shrinks the total by the size
of the field it covers (and additionally by the played cards themselves
when an 8 clears them), and a `pass` moves no cards between hands and
either clears the field (all-pass) or leaves it alone.  The total
therefore stays 53 only until the field is first covered or cleared. -/
theorem cardTotal_change_law (g : Game) (cards : List Card) (actor : Player)
    (hact : g.players.get? g.turnIndex.toNat = some actor)
    (hstate : g.gameState = GState.playing)
    (hok : validatePlay cards actor.hand g.field = .ok)
    (hpw : cards.Pairwise (fun a b => ¬(a.suit = b.suit ∧ a.rank = b.rank))) :
    (sumHands (playCardsStep g cards).1.players
        + (playCardsStep g cards).1.field.length
        + g.field.length
        + (if cards.any (fun c => c.rank == Rank.r8) then cards.length else 0)
      = sumHands g.players + g.field.length) ∧
    sumHands (passStep g).1.players = sumHands g.players ∧
    ((passStep g).1.field = [] ∨ (passStep g).1.field = g.field) := by
  have hilt := get?_lt_length g.players g.turnIndex.toNat actor hact
  have hrem := removeCards_length cards actor.hand
    (validatePlay_ok_mem cards actor.hand g.field hok) hpw
  refine ⟨?_, ?_, ?_⟩
  · -- playCards sum law
    have hs1 : sumHands (g.players.set g.turnIndex.toNat
          { actor with hand := removeCards actor.hand cards, status := .playing })
        + actor.hand.length
        = sumHands g.players + (removeCards actor.hand cards).length := by
      simpa using sumHands_set g.players g.turnIndex.toNat actor
        { actor with hand := removeCards actor.hand cards, status := .playing } hact
    have hsum6 : ∀ (ps : List Player) (r1 r2 : Option Nat),
        sumHands (if 2 < (setRoleFirst ps r1 Role.richest).length
          then setRoleFirst (setRoleFirst ps r1 Role.richest) r2 Role.poorest
          else setRoleFirst ps r1 Role.richest) = sumHands ps := by
      intro ps r1 r2
      split <;> simp [sumHands_setRoleFirst]
    unfold playCardsStep
    rw [hact]
    simp only [hstate, ne_eq, reduceCtorEq, not_false_eq_true, if_true, if_false,
      ite_not, hok]
    by_cases h8 : cards.any (fun c => c.rank == Rank.r8) = true
    · simp only [h8, if_true]
      split
      · next hempty =>
        split
        · -- round over: three limit-policy branches
          have key : ∀ ps : List Player, sumHands ps = 0 + sumHands ps := by
            intro ps; omega
          split
          · simp only []
            rw [hsum6, sumHands_commonerMap, sumHands_finishMap, sumHands_set_set]
            · simp only [List.length_nil]; omega
            · exact hilt
            · rfl
          · split
            all_goals
              simp only []
              rw [hsum6, sumHands_commonerMap, sumHands_finishMap, sumHands_set_set]
              · simp only [List.length_nil]; omega
              · exact hilt
              · rfl
        · -- ≥ 2 players left
          simp only []
          rw [sumHands_set_set]
          · simp only [List.length_nil]; omega
          · exact hilt
          · rfl
      · simp only [List.length_nil]
        omega
    · simp only [h8, if_false, Bool.false_eq_true]
      split
      · next hempty =>
        split
        · split
          · simp only []
            rw [hsum6, sumHands_commonerMap, sumHands_finishMap, sumHands_set_set]
            · omega
            · exact hilt
            · rfl
          · split
            all_goals
              simp only []
              rw [hsum6, sumHands_commonerMap, sumHands_finishMap, sumHands_set_set]
              · omega
              · exact hilt
              · rfl
        · simp only []
          rw [sumHands_set_set]
          · omega
          · exact hilt
          · rfl
      · simp only []
        omega
  · -- pass: hands untouched
    unfold passStep
    rw [hact]
    simp only [hstate, ne_eq, reduceCtorEq, not_false_eq_true, if_true, if_false,
      ite_not]
    have hs1 := sumHands_set_hand_eq g.players g.turnIndex.toNat actor
      { actor with status := .passed } hact rfl
    split
    · simp only []
      rw [sumHands_map, hs1]
      intro p; by_cases hr : p.rank == none <;> simp [hr]
    · exact hs1
  · -- pass: field cleared or unchanged
    unfold passStep
    rw [hact]
    simp only [hstate, ne_eq, reduceCtorEq, not_false_eq_true, if_true, if_false,
      ite_not]
    split
    · exact Or.inl rfl
    · exact Or.inr rfl

/-- State of the C1 witness: 2 players, field `[3♠]`, player 0 to move
holding 9♠ and K♥. -/
def gW1 : Game :=
  { players := [pSimple 0 [mkCard .s .r9, mkCard .h .rK], pSimple 1 [mkCard .c .r5]],
    gameState := .playing, turnIndex := 0, field := [mkCard .s .r3],
    lastPlay := some (1, [mkCard .s .r3]), passCount := 0, gameCount := 1,
    gameSettings := { limit := 0, hostId := some 0 }, ranks := [] }

/-- Witness for C1's amended theorem. -/
theorem cardTotal_change_law_witness :
    sumHands (playCardsStep gW1 [mkCard .s .r9]).1.players
        + (playCardsStep gW1 [mkCard .s .r9]).1.field.length
        + gW1.field.length
        + (if ([mkCard .s .r9] : List Card).any (fun c => c.rank == Rank.r8)
            then ([mkCard .s .r9] : List Card).length else 0)
      = sumHands gW1.players + gW1.field.length :=
  (cardTotal_change_law gW1 [mkCard .s .r9] (pSimple 0 [mkCard .s .r9, mkCard .h .rK])
    (by decide) (by decide) (by decide) (by decide)).1

/-! ## Claim C5 -/

/-- C5: a pass by the current turn-holder.  "Players with status
`playing`" is counted after the actor's pass is recorded, exactly as
the handler computes `activePlayers`.  If the incremented `passCount`
reaches that count: the table clears (`field = []`, `lastPlay = null`,
`passCount = 0`), every non-finished player is reset to `playing` (under
the invariant that `rank` is set exactly for finished players), and the
turn returns to the player who made `lastPlay` when that player is
seated and not finished, otherwise advances via the sequencer.  Below
the count, the turn simply advances via the sequencer. -/
theorem pass_spec (g : Game) (actor : Player)
    (hact : g.players.get? g.turnIndex.toNat = some actor)
    (hstate : g.gameState = GState.playing)
    (hactst : actor.status = PStatus.playing)
    (hconsist : ∀ p ∈ g.players, (p.rank = none ↔ p.status ≠ PStatus.finished)) :
    (((g.players.set g.turnIndex.toNat { actor with status := PStatus.passed }).filter
        (fun p => p.status == PStatus.playing)).length ≤ g.passCount + 1 →
      (passStep g).1.field = [] ∧
      (passStep g).1.lastPlay = none ∧
      (passStep g).1.passCount = 0 ∧
      (∀ p ∈ (passStep g).1.players,
        p.status ≠ PStatus.finished → p.status = PStatus.playing) ∧
      (∀ pid cs, g.lastPlay = some (pid, cs) →
        (∀ j, ((passStep g).1.players).findIdx? (fun p => p.id == pid) = some j →
          ((((passStep g).1.players).getD j default).status ≠ PStatus.finished →
            (passStep g).1.turnIndex = (j : Int)) ∧
          ((((passStep g).1.players).getD j default).status = PStatus.finished →
            (passStep g).1.turnIndex =
              findNextPlayer1 (passStep g).1.players g.turnIndex)) ∧
        (((passStep g).1.players).findIdx? (fun p => p.id == pid) = none →
          (passStep g).1.turnIndex =
            findNextPlayer1 (passStep g).1.players g.turnIndex)) ∧
      (g.lastPlay = none →
        (passStep g).1.turnIndex =
          findNextPlayer1 (passStep g).1.players g.turnIndex)) ∧
    (g.passCount + 1 <
        ((g.players.set g.turnIndex.toNat { actor with status := PStatus.passed }).filter
          (fun p => p.status == PStatus.playing)).length →
      (passStep g).1.field = g.field ∧
      (passStep g).1.lastPlay = g.lastPlay ∧
      (passStep g).1.passCount = g.passCount + 1 ∧
      (passStep g).1.turnIndex =
        findNextPlayer1 (passStep g).1.players g.turnIndex) := by
  unfold passStep
  rw [hact]
  simp only [hstate, ne_eq, reduceCtorEq, not_false_eq_true, if_true, if_false, ite_not]
  split
  · next hcond =>
    refine ⟨fun _ => ⟨rfl, rfl, rfl, ?_, ?_, ?_⟩, fun hlt => absurd hcond (by omega)⟩
    · -- every non-finished player is playing after the reset
      simp only []
      intro p hp hnf
      obtain ⟨q, hq, rfl⟩ := List.mem_map.mp hp
      by_cases hr : q.rank == none
      · simp [hr]
      · simp only [hr, if_false, Bool.false_eq_true] at hnf ⊢
        rcases List.mem_or_eq_of_mem_set hq with hq' | rfl
        · have := (hconsist q hq').mpr hnf
          simp [this] at hr
        · have hrk : actor.rank = none :=
            (hconsist actor (List.get?_mem hact)).mpr (by simp [hactst])
          simp [hrk] at hr
    · -- turn returns to the lastPlay player when seated and not finished
      intro pid cs hlp
      rw [hlp]
      simp only []
      refine ⟨fun j hj => ⟨fun hnf => ?_, fun hf => ?_⟩, fun hnone => ?_⟩
      · simp only [hj]
        rw [if_neg hnf]
      · simp only [hj]
        rw [if_pos hf]
      · simp only [hnone]
    · -- lastPlay was null: advance via the sequencer
      intro hnone
      simp only [hnone]
  · next hcond =>
    refine ⟨fun hle => absurd hle (by omega), fun _ => ⟨rfl, rfl, rfl, rfl⟩⟩

/-- State of the C5 witness: 2 players, player 1 made the last play,
player 0 passes and triggers the all-pass clear. -/
def gW5 : Game :=
  { players := [pSimple 0 [mkCard .s .r9], pSimple 1 [mkCard .c .r5]],
    gameState := .playing, turnIndex := 0, field := [mkCard .s .r3],
    lastPlay := some (1, [mkCard .s .r3]), passCount := 0, gameCount := 1,
    gameSettings := { limit := 0, hostId := some 0 }, ranks := [] }

/-- Witness for C5's theorem: the all-pass clear fires and the turn
returns to seat 1, the player who made the last play. -/
theorem pass_spec_witness :
    (passStep gW5).1.field = [] ∧ (passStep gW5).1.lastPlay = none ∧
    (passStep gW5).1.passCount = 0 ∧ (passStep gW5).1.turnIndex = 1 := by
  have h := pass_spec gW5 (pSimple 0 [mkCard .s .r9])
    (by decide) (by decide) (by decide) (by decide)
  have h1 := h.1 (by decide)
  have ht := ((h1.2.2.2.2.1 1 [mkCard .s .r3] (by decide)).1 1 (by decide)).1 (by decide)
  exact ⟨h1.1, h1.2.1, h1.2.2.1, ht⟩

/-! ## Claim C9 -/

lemma map_eraseIdx {α β : Type} (f : α → β) :
    ∀ (l : List α) (i : Nat), (l.eraseIdx i).map f = (l.map f).eraseIdx i := by
  intro l
  induction l with
  | nil => intro i; rfl
  | cons a as ih =>
    intro i
    cases i with
    | zero => rfl
    | succ n => simp [List.eraseIdx_cons_succ, ih]

lemma mem_eraseIdx_of_ne {α : Type} :
    ∀ (l : List α) (i : Nat) (h : i < l.length) (a : α),
      a ∈ l → a ≠ l.get ⟨i, h⟩ → a ∈ l.eraseIdx i := by
  intro l
  induction l with
  | nil => intro i h; simp at h
  | cons x xs ih =>
    intro i h a ha hne
    cases i with
    | zero =>
      rcases List.mem_cons.mp ha with rfl | h'
      · exact absurd rfl hne
      · simpa using h'
    | succ n =>
      rcases List.mem_cons.mp ha with rfl | h'
      · simp [List.eraseIdx_cons_succ]
      · simp only [List.eraseIdx_cons_succ, List.mem_cons]
        exact Or.inr (ih n (by simpa using h) a h' (by simpa using hne))

/-- A one-player waiting room whose sole player is the host. -/
def gC9 : Game :=
  { players := [pSimple 1 []], gameState := .waiting, turnIndex := -1,
    field := [], lastPlay := none, passCount := 0, gameCount := 0,
    gameSettings := { limit := 0, hostId := some 1 }, ranks := [] }

/-- C9 counterexample: the claim says `hostId` is null whenever the room
is empty; but when the last seated player (the host) disconnects from a
`waiting` room, neither the reassignment branch (no seats left) nor the
reset branch (state is `waiting`) fires, and `hostId` keeps the departed
player's id. -/
theorem host_stale_on_empty_waiting_room :
    (removePlayerStep gC9 1).players = [] ∧
    (removePlayerStep gC9 1).gameSettings.hostId = some 1 := by decide

/-- C9 (amended): after a disconnect, whenever seats remain `hostId`
refers to a seated player, and when the departing player was the host it
is reassigned to the first remaining seat; when the room empties during
a non-`waiting` state the reset nulls it; but when the last player
leaves a `waiting` room, `hostId` keeps the departed player's id instead
of null. -/
theorem removePlayer_host_spec (g : Game) (wsId : Nat)
    (hInv : ∀ hid, g.gameSettings.hostId = some hid →
      hid ∈ g.players.map (fun p => p.id)) :
    ((removePlayerStep g wsId).players ≠ [] →
      ∀ hid, (removePlayerStep g wsId).gameSettings.hostId = some hid →
        hid ∈ (removePlayerStep g wsId).players.map (fun p => p.id)) ∧
    (g.gameSettings.hostId = some wsId → (removePlayerStep g wsId).players ≠ [] →
      (removePlayerStep g wsId).gameSettings.hostId =
        ((removePlayerStep g wsId).players.head?).map (fun p => p.id)) ∧
    ((removePlayerStep g wsId).players = [] → g.gameState ≠ GState.waiting →
      (removePlayerStep g wsId).gameSettings.hostId = none) := by
  cases hfi : g.players.findIdx? (fun p => p.id == wsId) with
  | none =>
    have hres : removePlayerStep g wsId = g := by
      unfold removePlayerStep; rw [hfi]
    rw [hres]
    refine ⟨fun _ => hInv, fun hh _ => ?_, fun hempty _ => ?_⟩
    · exfalso
      obtain ⟨p, hp, hpid⟩ := List.mem_map.mp (hInv wsId hh)
      have hsome : (g.players.findIdx? (fun p => p.id == wsId)).isSome := by
        rw [List.findIdx?_eq_some_of_exists ⟨p, hp, by simp [hpid]⟩]; rfl
      rw [hfi] at hsome; cases hsome
    · cases hh : g.gameSettings.hostId with
      | none => rfl
      | some hid =>
        have := hInv hid hh
        rw [hempty] at this
        simp at this
  | some i =>
    have hi := findIdx?_lt_length _ g.players i hfi
    obtain ⟨hi', hpred, _⟩ := List.findIdx?_eq_some_iff_getElem.mp hfi
    have hremoved : g.players.getD i default = g.players.get ⟨i, hi⟩ := by
      rw [List.getD_eq_getElem?_getD, List.getElem?_eq_getElem hi']
      rfl
    have hremid : (g.players.getD i default).id = wsId := by
      rw [hremoved]
      simpa using hpred
    have hres : removePlayerStep g wsId =
        (if (g.players.eraseIdx i).length < 2 ∧
              (if g.gameSettings.hostId = some (g.players.getD i default).id then
                match (g.players.eraseIdx i).head? with
                | some p0 =>
                  { g with players := g.players.eraseIdx i,
                           gameSettings := { g.gameSettings with hostId := some p0.id } }
                | none => { g with players := g.players.eraseIdx i }
              else { g with players := g.players.eraseIdx i }).gameState ≠ GState.waiting
          then emptyGame
          else
            (if g.gameSettings.hostId = some (g.players.getD i default).id then
              match (g.players.eraseIdx i).head? with
              | some p0 =>
                { g with players := g.players.eraseIdx i,
                         gameSettings := { g.gameSettings with hostId := some p0.id } }
              | none => { g with players := g.players.eraseIdx i }
            else { g with players := g.players.eraseIdx i })) := by
      unfold removePlayerStep
      rw [hfi]
    by_cases hreset : (g.players.eraseIdx i).length < 2 ∧ g.gameState ≠ GState.waiting
    · -- the under-2-players reset fires: the whole game is cleared
      have hres2 : removePlayerStep g wsId = emptyGame := by
        rw [hres, if_pos]
        constructor
        · exact hreset.1
        · split <;> first
            | (rename_i hh; split <;> exact hreset.2)
            | exact hreset.2
      rw [hres2]
      exact ⟨fun hne => absurd rfl hne, fun _ hne => absurd rfl hne, fun _ _ => rfl⟩
    · have hgs : ∀ h2 : Game, h2.gameState = g.gameState → ¬((g.players.eraseIdx i).length < 2 ∧ h2.gameState ≠ GState.waiting) := by
        intro h2 hh2 hcon
        exact hreset ⟨hcon.1, hh2 ▸ hcon.2⟩
      by_cases hhost : g.gameSettings.hostId = some (g.players.getD i default).id
      · cases hhead : (g.players.eraseIdx i).head? with
        | none =>
          have hnil := List.head?_eq_none_iff.mp hhead
          have hres2 : removePlayerStep g wsId = { g with players := g.players.eraseIdx i } := by
            rw [hres, if_neg, if_pos hhost, hhead]
            rw [if_pos hhost, hhead]
            exact hgs _ rfl
          rw [hres2]
          refine ⟨fun hne => absurd hnil hne, fun _ hne => absurd hnil hne, fun _ hst => ?_⟩
          exact absurd (hgs { g with players := g.players.eraseIdx i } rfl)
            (by simp [hnil, hst])
        | some p0 =>
          have hres2 : removePlayerStep g wsId =
              { g with players := g.players.eraseIdx i,
                       gameSettings := { g.gameSettings with hostId := some p0.id } } := by
            rw [hres, if_neg, if_pos hhost, hhead]
            rw [if_pos hhost, hhead]
            exact hgs _ rfl
          rw [hres2]
          have hp0 : p0 ∈ g.players.eraseIdx i := List.mem_of_mem_head? hhead
          refine ⟨fun _ hid hhid => ?_, fun _ _ => ?_, fun hempty _ => ?_⟩
          · cases hhid
            exact List.mem_map.mpr ⟨p0, hp0, rfl⟩
          · simp [hhead]
          · have hempty2 : g.players.eraseIdx i = [] := hempty
            rw [hempty2] at hp0
            cases hp0
      · have hres2 : removePlayerStep g wsId = { g with players := g.players.eraseIdx i } := by
          rw [hres, if_neg, if_neg hhost]
          rw [if_neg hhost]
          exact hgs _ rfl
        rw [hres2]
        refine ⟨fun _ hid hhid => ?_, fun hws _ => ?_, fun hempty hst => ?_⟩
        · have hidmem := hInv hid hhid
          have hneq : hid ≠ (g.players.get ⟨i, hi⟩).id := by
            intro he
            exact hhost (by rw [hremoved, ← he]; exact hhid)
          rw [map_eraseIdx]
          apply mem_eraseIdx_of_ne (g.players.map (fun p => p.id)) i
            (by simpa using hi) hid hidmem
          intro he
          apply hneq
          rw [he]
          simp [List.getElem_map]
        · exact absurd (hremid ▸ hws) hhost
        · have hempty2 : g.players.eraseIdx i = [] := hempty
          exact absurd (hgs { g with players := g.players.eraseIdx i } rfl)
            (by simp [hempty2, hst])

/-- 3-player playing state whose host (seat 0) will disconnect. -/
def gW9 : Game :=
  { players := [pSimple 10 [mkCard .s .r3], pSimple 11 [mkCard .s .r4],
                pSimple 12 [mkCard .s .r5]],
    gameState := .playing, turnIndex := 1, field := [], lastPlay := none,
    passCount := 0, gameCount := 1,
    gameSettings := { limit := 0, hostId := some 10 }, ranks := [] }

/-- Witness for C9's amended theorem: the host disconnects from a
3-player game and the host role moves to the first remaining seat. -/
theorem removePlayer_host_spec_witness :
    (removePlayerStep gW9 10).gameSettings.hostId =
      ((removePlayerStep gW9 10).players.head?).map (fun p => p.id) := by
  have h := removePlayer_host_spec gW9 10 (by decide)
  exact h.2.1 (by decide) (by decide)

/-! ## Claim C8 -/

lemma getD_eq_of_get? {α : Type} [Inhabited α] (l : List α) (i : Nat) (a : α)
    (h : l.get? i = some a) : l.getD i default = a := by
  rw [List.getD_eq_getElem?_getD, ← List.get?_eq_getElem?, h]
  rfl

/-- The richest player's hand before the exchange in the C8 example. -/
def dgC8 : List Card := [mkCard .s .rK, mkCard .s .rA]

/-- The poorest player's hand before the exchange in the C8 example. -/
def dmC8 : List Card := [mkCard .s .r3, mkCard .s .r4, mkCard .s .r5]

/-- An exchange-phase game with those two hands. -/
def gC8 : Game :=
  { players := [{ pSimple 0 dgC8 with role := .richest, status := .finished, rank := some 1 },
                { pSimple 1 dmC8 with role := .poorest, status := .finished, rank := some 2 }],
    gameState := .exchange, turnIndex := 0, field := [], lastPlay := none,
    passCount := 0, gameCount := 1,
    gameSettings := { limit := 3, hostId := some 0 }, ranks := [0, 1] }

/-- C8 counterexample: the claim says the richest player's two
lowest-value cards *of their original pre-exchange hand* go to the
poorest player.  Here the richest hand is `[K♠, A♠]`, whose two lowest
cards include K♠; but the code re-sorts the richest hand *after*
receiving the poorest's two highest cards (4♠, 5♠) and returns the two
lowest of that combined hand — the very cards just received — so K♠
never reaches the poorest player and both hands end unchanged. -/
theorem exchange_returns_post_receive_lowest :
    (handleCardExchange gC8).2 = true ∧
    ((handleCardExchange gC8).1.players.getD 1 default).hand =
      [mkCard .s .r3, mkCard .s .r4, mkCard .s .r5] ∧
    mkCard .s .rK ∈ (sortHand dgC8).take 2 ∧
    mkCard .s .rK ∉ ((handleCardExchange gC8).1.players.getD 1 default).hand := by
  decide

/-- C8 (amended): if no player holds role richest, or none holds
poorest, or fewer than 2 players are seated, the exchange is skipped and
`startRound` runs directly.  Otherwise the poorest player's two
highest-value cards go to the richest player, and the richest player
returns the two lowest-value cards of their hand *after* receiving them
(the combined re-sorted hand) — not of the pre-exchange hand — cards
are conserved, and both hands end sorted. -/
theorem exchange_spec (g : Game) :
    ((g.players.findIdx? (fun p => p.role == Role.richest) = none ∨
      g.players.findIdx? (fun p => p.role == Role.poorest) = none ∨
      g.players.length < 2) → handleCardExchange g = (g, false)) ∧
    (∀ di mi dg dm,
      g.players.findIdx? (fun p => p.role == Role.richest) = some di →
      g.players.findIdx? (fun p => p.role == Role.poorest) = some mi →
      2 ≤ g.players.length →
      g.players.get? di = some dg →
      g.players.get? mi = some dm →
      (handleCardExchange g).2 = true ∧
      (handleCardExchange g).1.gameState = GState.playing ∧
      (handleCardExchange g).1.players.get? mi =
        some { dm with hand := (exchangeHands dg.hand dm.hand).2 } ∧
      (handleCardExchange g).1.players.get? di =
        some { dg with hand := (exchangeHands dg.hand dm.hand).1 } ∧
      (exchangeHands dg.hand dm.hand).1.Pairwise cardLe ∧
      (exchangeHands dg.hand dm.hand).2.Pairwise cardLe ∧
      ((exchangeHands dg.hand dm.hand).1 ++ (exchangeHands dg.hand dm.hand).2).Perm
        (dg.hand ++ dm.hand) ∧
      (2 ≤ dm.hand.length →
        ((sortHand dm.hand).drop ((sortHand dm.hand).length - 2)).length = 2 ∧
        ∀ x ∈ (sortHand dm.hand).take ((sortHand dm.hand).length - 2),
          ∀ c ∈ (sortHand dm.hand).drop ((sortHand dm.hand).length - 2), cardLe x c) ∧
      (∀ c ∈ (sortHand (dg.hand ++
            (sortHand dm.hand).drop ((sortHand dm.hand).length - 2))).take 2,
        ∀ x ∈ (sortHand (dg.hand ++
            (sortHand dm.hand).drop ((sortHand dm.hand).length - 2))).drop 2,
          cardLe c x)) := by
  constructor
  · intro h
    rcases h with h1 | h2 | h3
    · unfold handleCardExchange
      rw [h1]
    · unfold handleCardExchange
      cases ha : g.players.findIdx? (fun p => p.role == Role.richest) with
      | none => rfl
      | some di => rw [h2]
    · unfold handleCardExchange
      cases ha : g.players.findIdx? (fun p => p.role == Role.richest) with
      | none => rfl
      | some di =>
        cases hb : g.players.findIdx? (fun p => p.role == Role.poorest) with
        | none => rfl
        | some mi => simp [h3]
  · intro di mi dg dm hdi hmi hlen hgdg hgdm
    have hdgD := getD_eq_of_get? g.players di dg hgdg
    have hdmD := getD_eq_of_get? g.players mi dm hgdm
    have hdilt := get?_lt_length g.players di dg hgdg
    have hmilt := get?_lt_length g.players mi dm hgdm
    have hne : di ≠ mi := by
      intro he
      subst he
      obtain ⟨h1, hp1, _⟩ := List.findIdx?_eq_some_iff_getElem.mp hdi
      obtain ⟨h2, hp2, _⟩ := List.findIdx?_eq_some_iff_getElem.mp hmi
      simp only [beq_iff_eq] at hp1 hp2
      rw [hp1] at hp2
      cases hp2
    have hres : (handleCardExchange g).1.players =
          ((g.players.set di { dg with hand := (exchangeHands dg.hand dm.hand).1 }).set mi { dm with hand := (exchangeHands dg.hand dm.hand).2 }) ∧
        (handleCardExchange g).1.gameState = GState.playing ∧
        (handleCardExchange g).2 = true := by
      unfold handleCardExchange
      rw [hdi, hmi]
      simp only [hdgD, hdmD, if_neg (show ¬ g.players.length < 2 by omega)]
      exact ⟨by trivial, by trivial, by trivial⟩
    refine ⟨hres.2.2, hres.2.1, ?_, ?_, ?_, ?_, ?_, ?_, ?_⟩
    · rw [hres.1]
      exact get?_set_self _ mi _ (by rw [List.length_set]; omega)
    · rw [hres.1, List.get?_eq_getElem?, List.getElem?_set_ne (by omega : mi ≠ di),
        ← List.get?_eq_getElem?]
      exact get?_set_self _ di _ hdilt
    · exact List.sorted_insertionSort cardLe _
    · exact List.sorted_insertionSort cardLe _
    · -- conservation of the two hands, as multisets
      unfold exchangeHands
      simp only []
      refine List.Perm.trans (List.Perm.append (List.perm_insertionSort _ _)
        (List.perm_insertionSort _ _)) ?_
      have hcomb : (sortHand (dg.hand ++
            (sortHand dm.hand).drop ((sortHand dm.hand).length - 2))).Perm
          (dg.hand ++ (sortHand dm.hand).drop ((sortHand dm.hand).length - 2)) :=
        List.perm_insertionSort cardLe _
      have hdmS : (sortHand dm.hand).Perm dm.hand :=
        List.perm_insertionSort cardLe dm.hand
      refine List.Perm.trans (List.Perm.append_left _ List.perm_append_comm) ?_
      rw [← List.append_assoc]
      refine List.Perm.trans (List.Perm.append_right _ List.perm_append_comm) ?_
      rw [List.take_append_drop]
      refine List.Perm.trans (List.Perm.append_right _ hcomb) ?_
      rw [List.append_assoc]
      refine List.Perm.trans (List.Perm.append_left _ List.perm_append_comm) ?_
      rw [List.take_append_drop]
      exact List.Perm.append_left _ hdmS
    · -- the two cards given up are the poorest hand's two highest
      intro hdm2
      have hsorted : (sortHand dm.hand).Pairwise cardLe :=
        List.sorted_insertionSort cardLe dm.hand
      have hlenS : (sortHand dm.hand).length = dm.hand.length :=
        (List.perm_insertionSort cardLe dm.hand).length_eq
      constructor
      · rw [List.length_drop]
        omega
      · have hsplit := hsorted
        rw [← List.take_append_drop ((sortHand dm.hand).length - 2) (sortHand dm.hand)]
          at hsplit
        exact fun x hx c hc => (List.pairwise_append.mp hsplit).2.2 x hx c hc
    · -- the two cards returned are the combined hand's two lowest
      have hsorted : (sortHand (dg.hand ++
          (sortHand dm.hand).drop ((sortHand dm.hand).length - 2))).Pairwise cardLe :=
        List.sorted_insertionSort cardLe _
      have hsplit := hsorted
      rw [← List.take_append_drop 2 (sortHand (dg.hand ++
        (sortHand dm.hand).drop ((sortHand dm.hand).length - 2)))] at hsplit
      exact fun c hc x hx => (List.pairwise_append.mp hsplit).2.2 c hc x hx

/-- Exchange-phase game of the C8 witness: richest holds `[3♠, A♠]`,
poorest holds `[4♥, 5♥, J♥]`. -/
def gW8 : Game :=
  { players := [{ pSimple 0 [mkCard .s .r3, mkCard .s .rA] with
                    role := .richest, status := .finished, rank := some 1 },
                { pSimple 1 [mkCard .h .r4, mkCard .h .r5, mkCard .h .rJ] with
                    role := .poorest, status := .finished, rank := some 2 }],
    gameState := .exchange, turnIndex := 0, field := [], lastPlay := none,
    passCount := 0, gameCount := 1,
    gameSettings := { limit := 3, hostId := some 0 }, ranks := [0, 1] }

/-- Witness for C8's amended theorem. -/
theorem exchange_spec_witness :
    (handleCardExchange gW8).2 = true ∧
    (handleCardExchange gW8).1.gameState = GState.playing := by
  have h := (exchange_spec gW8).2 0 1
    { pSimple 0 [mkCard .s .r3, mkCard .s .rA] with
        role := .richest, status := .finished, rank := some 1 }
    { pSimple 1 [mkCard .h .r4, mkCard .h .r5, mkCard .h .rJ] with
        role := .poorest, status := .finished, rank := some 2 }
    (by decide) (by decide) (by decide) (by decide) (by decide)
  exact ⟨h.1, h.2.1⟩

end Daifugo
